import Mathlib

/-!
Verification of the WorkerPoolManager repository (src/workerManager.js, the
worker scripts under src/workers, and the HTTP front-end app.js) against its
natural-language specification.

The manager's state (`WorkerPool` class fields) is embedded as `WPState`;
JS `Map`s become insertion-ordered association lists, JS `Set`s become
insertion-ordered duplicate-free lists of worker ids, and the worker objects
(which JS mutates through references held by the sets) live in a single
`workers` store keyed by `wid` (which also stands for the OS pid: a stable
identity attached at spawn time).  Task ids are uuid strings in the source;
they are only ever created fresh and compared for equality, so they are
modelled as `Nat`.  Fallible handlers return a result structure with an
`err : Option String` field: JS mutations performed before a throw persist,
so the post-throw state is carried alongside the error.
-/

namespace WPM

/-- A JS value as far as the manager inspects one: a string, a number, or null. -/
inductive JsVal where
  | str (s : String)
  | num (n : Int)
  | null
  deriving DecidableEq, Repr

/-- A task record (parent-to-child message): `{id, type, data, poolName}`.
`poolName` is attached by the submit path (`task.poolName = poolName`). -/
structure TaskRec where
  id : Nat
  type : String
  data : JsVal
  poolName : Option String
  deriving DecidableEq, Repr

/-- A reply message from a child worker as read by `processWorkerMessage`:
`{type, id, ok, data}`. -/
structure RMsg where
  type : String
  id : Nat
  ok : Bool
  data : JsVal
  deriving DecidableEq, Repr

/-- The bookkeeping the manager attaches to a spawned child process:
`worker.poolName`, `worker.workerScript`, `worker.memoryLimit`,
`worker.runningTasks`.  `wid` models the object identity / pid. -/
structure Worker where
  wid : Nat
  poolName : String
  workerScript : String
  memoryLimit : Int
  runningTasks : Int
  deriving DecidableEq, Repr

/-- The `WorkerPool` class state: `workerSet` (a JS `Set` of workers),
`workerPools` (a JS `Map` from pool name to a `Set` of workers),
`pendingTasks` (an array of `{task, callback}`), `taskCallbacks`
(a JS `Map` from task id to callback).  Callbacks are opaque tokens (`Nat`).
`nextWid` generates fresh worker identities at spawn; `nextId` is the fresh
task-id source used by the spec-modelled submit operation. -/
structure WPState where
  workerSet : List Nat
  workerPools : List (String × List Nat)
  pendingTasks : List (TaskRec × Nat)
  taskCallbacks : List (Nat × Nat)
  workers : List Worker
  nextWid : Nat
  nextId : Nat
  deriving DecidableEq, Repr

/-- The freshly constructed manager (the `WorkerPool` constructor). -/
def emptyState : WPState :=
  { workerSet := [], workerPools := [], pendingTasks := [], taskCallbacks := [],
    workers := [], nextWid := 0, nextId := 0 }

/-- JS `Map.set`: overwrite in place when the key exists, else append. -/
def mapSet {κ α : Type} [BEq κ] (m : List (κ × α)) (k : κ) (v : α) : List (κ × α) :=
  if (List.lookup k m).isSome then
    m.map (fun p => if p.1 == k then (k, v) else p)
  else
    m ++ [(k, v)]

/-- JS `Map.delete`. -/
def mapDelete {κ α : Type} [BEq κ] (m : List (κ × α)) (k : κ) : List (κ × α) :=
  m.filter (fun p => !(p.1 == k))

/-- JS `Set.add`: a no-op when the element is present (keeps first position). -/
def setAdd (l : List Nat) (x : Nat) : List Nat :=
  if l.contains x then l else l ++ [x]

/-- JS `Set.delete`. -/
def setDelete (l : List Nat) (x : Nat) : List Nat :=
  l.filter (fun y => !(y == x))

/-- Dereference a worker id in the store. -/
def getWorker (s : WPState) (wid : Nat) : Option Worker :=
  s.workers.find? (fun w => w.wid == wid)

/-- In-place mutation of `worker.runningTasks` (`++` is `d = 1`, `--` is `d = -1`),
applied through the store by identity. -/
def updRunningTasks (s : WPState) (wid : Nat) (d : Int) : WPState :=
  { s with workers :=
      s.workers.map (fun w =>
        if w.wid == wid then { w with runningTasks := w.runningTasks + d } else w) }

/-- JS `x || dflt` for an optional string: `undefined` and the empty string are falsy. -/
def jsOrStr (v : Option String) (d : String) : String :=
  match v with
  | none => d
  | some s => if s = "" then d else s

/-- JS `x || dflt` for an optional integer: `undefined` and `0` are falsy. -/
def jsOrInt (v : Option Int) (d : Int) : Int :=
  match v with
  | none => d
  | some x => if x = 0 then d else x

/-- JS truthiness of an optional string value (used where the source branches on
`poolName ? ... : ...`): `undefined`, `null` and `""` are falsy. -/
def jsTruthyStr (v : Option String) : Option String :=
  match v with
  | none => none
  | some s => if s = "" then none else some s

/-- `this.workerPools.get(task.poolName || "default") || this.workerSet`, spread
into an array of worker objects (`[...workerPool]`, in set insertion order). -/
def resolveCandidates (s : WPState) (t : TaskRec) : List Worker :=
  (match List.lookup (jsOrStr t.poolName "default") s.workerPools with
   | some ids => ids
   | none => s.workerSet).filterMap (getWorker s)

/-- The reducer `(a, b) => a.runningTasks <= b.runningTasks ? a : b`. -/
def reduceLeastBusy (a b : Worker) : Worker :=
  if a.runningTasks ≤ b.runningTasks then a else b

/-- `array.reduce(reduceLeastBusy)` with no initial value: throws (`none`) on an
empty array, else folds with the first element as the initial accumulator. -/
def leastBusy : List Worker → Option Worker
  | [] => none
  | w :: ws => some (ws.foldl reduceLeastBusy w)

/-- Outcome of `processNextTask`: the state after the call (JS mutations made
before a throw persist), the message sent to the chosen worker if a dispatch
happened, and the uncaught exception if one was thrown.  `processNextTask`
never invokes a caller callback. -/
structure PNTResult where
  state : WPState
  sent : Option (Nat × TaskRec)
  err : Option String
  deriving DecidableEq, Repr

/-- `processNextTask` (src/workerManager.js:299-312): return if the queue is
empty; shift the head `{task, callback}`; resolve the candidate worker set;
`reduce` it to the least-busy worker (throwing on an empty set, with the head
task already removed and no callback recorded); record the callback, send the
task, increment the chosen worker's counter. -/
def processNextTask (s : WPState) : PNTResult :=
  match s.pendingTasks with
  | [] => { state := s, sent := none, err := none }
  | (task, callback) :: rest =>
    let s1 : WPState := { s with pendingTasks := rest }
    match leastBusy (resolveCandidates s1 task) with
    | none =>
      { state := s1, sent := none,
        err := some "TypeError: Reduce of empty array with no initial value" }
    | some w =>
      let s2 : WPState := { s1 with taskCallbacks := mapSet s1.taskCallbacks task.id callback }
      let s3 : WPState := updRunningTasks s2 w.wid 1
      { state := s3, sent := some (w.wid, task), err := none }

/-- Outcome of the message handler: post state, the callbacks invoked during
the call (in order, each with the full reply message it received), the task
sent by the trailing `processNextTask` if one was dispatched, and a propagated
exception if the trailing dispatch threw. -/
structure MsgResult where
  state : WPState
  invoked : List (Nat × RMsg)
  sent : Option (Nat × TaskRec)
  err : Option String
  deriving DecidableEq, Repr

/-- `processWorkerMessage` (src/workerManager.js:254-274), bound to the worker
that sent the message: `initDone` only logs; `workDone` and `error` decrement
the sender's `runningTasks`, look up `taskCallbacks[message.id]`, invoke and
delete the entry when present, and call `processNextTask()`; other message
types fall through the switch. -/
def processWorkerMessage (s : WPState) (wid : Nat) (m : RMsg) : MsgResult :=
  if m.type = "initDone" then
    { state := s, invoked := [], sent := none, err := none }
  else if m.type = "workDone" ∨ m.type = "error" then
    let s1 := updRunningTasks s wid (-1)
    match List.lookup m.id s1.taskCallbacks with
    | some cb =>
      let s2 : WPState := { s1 with taskCallbacks := mapDelete s1.taskCallbacks m.id }
      let r := processNextTask s2
      { state := r.state, invoked := [(cb, m)], sent := r.sent, err := r.err }
    | none =>
      let r := processNextTask s1
      { state := r.state, invoked := [], sent := r.sent, err := r.err }
  else
    { state := s, invoked := [], sent := none, err := none }

/-- `addWorkerTask` (src/workerManager.js:320-324): stamp the pool name onto
the task, push `{task, callback}` onto the queue, call `processNextTask()`.
No validation of the pool name and no return value. -/
def addWorkerTask (s : WPState) (task : TaskRec) (callback : Nat) (poolName : String) : PNTResult :=
  let t : TaskRec := { task with poolName := some poolName }
  processNextTask { s with pendingTasks := s.pendingTasks ++ [(t, callback)] }

/-- One iteration of the spawn loop (src/workerManager.js:227-246): fork the
child with `--expose-gc --max-old-space-size=<memoryLimit>`, attach
`poolName`, `memoryLimit`, `workerScript`, `runningTasks = 0`, register the
message and exit handlers, send INIT, and add the worker to `workerSet` and
to its pool's set. -/
def spawnOne (s : WPState) (workerScript poolName : String) (memoryLimit : Int) : WPState :=
  let w : Worker :=
    { wid := s.nextWid, poolName := poolName, workerScript := workerScript,
      memoryLimit := memoryLimit, runningTasks := 0 }
  { s with
    workers := s.workers ++ [w],
    nextWid := s.nextWid + 1,
    workerSet := setAdd s.workerSet w.wid,
    workerPools := s.workerPools.map (fun p =>
      if p.1 == poolName then (p.1, setAdd p.2 w.wid) else p) }

/-- The `for (let i = 0; i < workerCount; i++)` loop body of `spawnWorkers`. -/
def spawnLoop (s : WPState) (n : Nat) (workerScript poolName : String) (memoryLimit : Int) : WPState :=
  match n with
  | 0 => s
  | Nat.succ k => spawnLoop (spawnOne s workerScript poolName memoryLimit) k workerScript poolName memoryLimit

/-- `spawnWorkers` (src/workerManager.js:221-247): initialize the pool's set
when absent, then spawn `workerCount` workers into it. -/
def spawnWorkers (s : WPState) (workerCount : Nat) (workerScript poolName : String) (memoryLimit : Int) : WPState :=
  let s0 : WPState :=
    if (List.lookup poolName s.workerPools).isSome then s
    else { s with workerPools := s.workerPools ++ [(poolName, [])] }
  spawnLoop s0 workerCount workerScript poolName memoryLimit

/-- One entry of the `workerPool` configuration array. -/
structure PoolConfig where
  poolName : Option String
  workerScript : Option String
  workerCount : Option Int
  workerMemoryLimit : Option Int
  deriving DecidableEq, Repr

/-- `initWorkerPools` (src/workerManager.js:197-212): for each config entry,
skip it when `workerScript` or `poolName` is falsy (log-and-continue),
otherwise call
`spawnWorkers(config.workerCount || 1, config.workerScript, config.poolName, config.workerMemoryLimit || 1)`.
Note the source passes `|| 1`, not the 4096 default of `spawnWorkers`. -/
def initWorkerPools (s : WPState) (workerPoolConfig : List PoolConfig) : WPState :=
  workerPoolConfig.foldl (fun st cfg =>
    match jsTruthyStr cfg.workerScript with
    | none => st
    | some script =>
      match jsTruthyStr cfg.poolName with
      | none => st
      | some pool =>
        spawnWorkers st (jsOrInt cfg.workerCount 1).toNat script pool
          (jsOrInt cfg.workerMemoryLimit 1)) s

/-- Outcome of the exit handler: post state and propagated exception. -/
structure ExitResult where
  state : WPState
  err : Option String
  deriving DecidableEq, Repr

/-- JS `Map.get` with an arbitrary-valued key: only a string key can match,
since every key in `workerPools` was inserted as a string. -/
def jsMapGetVal (m : List (String × List Nat)) : JsVal → Option (List Nat)
  | JsVal.str k => List.lookup k m
  | _ => none

/-- JS string coercion, as `fork` would receive it for a non-string script. -/
def jsValAsString : JsVal → String
  | JsVal.str s => s
  | JsVal.num n => toString n
  | JsVal.null => "null"

/-- `manageWorkerExit` (src/workerManager.js:283-294), with the parameter list
of the source: `(exitedWorker, code, signal, poolName = "default")`.  Delete
the worker from `workerSet`; then `this.workerPools.get(poolName).delete(...)`
throws a TypeError when `poolName` is not a key (`get` returned `undefined`);
otherwise, if `code !== 0`, call `this.spawnWorkers(1, poolName)` - only two
positional arguments, so `workerScript` receives the `poolName` parameter
value and the pool and memory limit fall back to the defaults
`("default", 4096)`. -/
def manageWorkerExit (s : WPState) (exitedWid : Nat) (code signal poolName : JsVal) : ExitResult :=
  let s1 : WPState := { s with workerSet := setDelete s.workerSet exitedWid }
  match jsMapGetVal s1.workerPools poolName with
  | none =>
    { state := s1,
      err := some "TypeError: Cannot read properties of undefined, reading delete" }
  | some _ =>
    let s2 : WPState :=
      { s1 with workerPools := s1.workerPools.map (fun p =>
          if JsVal.str p.1 == poolName then (p.1, setDelete p.2 exitedWid) else p) }
    if code ≠ JsVal.num 0 then
      { state := spawnWorkers s2 1 (jsValAsString poolName) "default" 4096, err := none }
    else
      { state := s2, err := none }

/-- The exit event as it actually fires.  The handler is registered as
`this.manageWorkerExit.bind(this, worker, poolName)` (src/workerManager.js:240)
and Node invokes it with `(code, signal)`, so the call is
`manageWorkerExit(worker, poolName, code, signal)`: the source's `code`
parameter receives the registered pool name, `signal` receives the exit code,
and `poolName` receives the signal (`null` when the child was not killed by a
signal). -/
def onWorkerExit (s : WPState) (wid : Nat) (registeredPool : String) (exitCode : Int)
    (signal : Option String) : ExitResult :=
  manageWorkerExit s wid (JsVal.str registeredPool) (JsVal.num exitCode)
    (match signal with
     | none => JsVal.null
     | some sig => JsVal.str sig)

/-- A `pidusage` sample. -/
structure StatRec where
  cpu : Int
  memory : Int
  deriving DecidableEq, Repr

/-- One entry of the `getWorkerStatus` result. -/
structure StatusEntry where
  poolName : String
  pid : Nat
  runningTasks : Int
  stats : StatRec
  deriving DecidableEq, Repr

/-- `getWorkerStatus` (src/workerManager.js:331-347): resolve the target set
as `poolName ? this.workerPools.get(poolName) : this.workerSet` (a falsy pool
name selects all workers); spreading an `undefined` lookup result throws a
TypeError; otherwise probe each worker with `pidusage`, mapping a failed probe
to `null` and filtering the nulls out.  The probe is a pluggable dependency,
passed here as a function from pid to an optional sample. -/
def getWorkerStatus (s : WPState) (poolName : Option String)
    (probe : Nat → Option StatRec) : Except String (List StatusEntry) :=
  match (match jsTruthyStr poolName with
         | some p => List.lookup p s.workerPools
         | none => some s.workerSet) with
  | none => Except.error "TypeError: targetWorkers is not iterable"
  | some ids =>
    Except.ok (ids.filterMap (fun wid =>
      (getWorker s wid).bind (fun w =>
        match probe w.wid with
        | some st =>
          some { poolName := w.poolName, pid := w.wid, runningTasks := w.runningTasks, stats := st }
        | none => none)))

/-- `terminateWorkers` (src/workerManager.js:353-362): resolve the target set
as `poolName ? this.workerPools.get(poolName) : this.workerSet`; calling
`forEach` on an `undefined` lookup result throws a TypeError; otherwise send
TERMINATE to each member (returned here as the list of messaged worker ids). -/
def terminateWorkers (s : WPState) (poolName : Option String) : Except String (List Nat) :=
  match (match jsTruthyStr poolName with
         | some p => List.lookup p s.workerPools
         | none => some s.workerSet) with
  | none => Except.error "TypeError: Cannot read properties of undefined, reading forEach"
  | some ids => Except.ok ids

/-- A parent-to-child message as the child reads it; `id` is absent
(`undefined`) on the INIT the manager sends at spawn. -/
structure CMsg where
  type : String
  id : Option Nat
  data : JsVal
  deriving DecidableEq, Repr

/-- A reply built by the child (`{ok, data, id}` plus the `type` set per case). -/
structure CReply where
  type : String
  id : Option Nat
  ok : Bool
  data : JsVal
  deriving DecidableEq, Repr

/-- What the child process does with an incoming message. -/
inductive ChildAction where
  | reply (r : CReply)
  | exitProc (code : Int)
  | ignore
  deriving DecidableEq, Repr

/-- The child message handler of src/workers/exampleWorker_CPULoad.js (and the
MemoryUsage variant, which is identical here): `processTask` builds
`{ok: true, data: {}, id: task.id}` and per case sets the type - INIT runs
`init()` (returning `{pid}`) and replies INIT_DONE; WORK awaits the user
workload and replies WORK_DONE with its result; TERMINATE exits with code 0
without replying; unknown types are logged and ignored.  A workload failure is
caught by the listener and `reportError` sends
`{ok: false, id: task.id, data: err.message, type: "error"}`.  The workload's
outcome is environment-determined and passed as `workOutcome`. -/
def childOnMessage (pid : Nat) (workOutcome : Except String JsVal) (task : CMsg) : ChildAction :=
  if task.type = "init" then
    ChildAction.reply { type := "initDone", id := task.id, ok := true, data := JsVal.num (Int.ofNat pid) }
  else if task.type = "work" then
    match workOutcome with
    | Except.ok d => ChildAction.reply { type := "workDone", id := task.id, ok := true, data := d }
    | Except.error e => ChildAction.reply { type := "error", id := task.id, ok := false, data := JsVal.str e }
  else if task.type = "terminate" then
    ChildAction.exitProc 0
  else
    ChildAction.ignore

/-- Outcome of the spec-modelled submit operation. -/
structure ExecResult where
  ok : Bool
  message : Option String
  state : WPState
  assignedId : Option Nat
  sent : Option (Nat × TaskRec)
  err : Option String
  deriving DecidableEq, Repr

/-- Modelled from the spec: the Control Surface operation
`executePoolWorkerTask(task, cb, poolName)` is called by src/app.js but its
implementation is missing from src/ (src/workerManager.js holds an older
revision that exposes only `addWorkerTask`, with no pool check and no id
assignment).  Per spec section 4.3 (`submitPoolTask`): if the pool name is not
a key of the pools map, return `{ok: false, message: "Worker pool <name> does
not exist"}` synchronously without touching any state and without calling the
callback; otherwise assign a fresh unique id, set `type = "work"`, record the
pool name, append `(task, cb)` to the pending queue, invoke
`processNextTask()`, and return `{ok: true}`.  Fresh ids (uuids in the source)
are modelled by the `nextId` counter. -/
def executePoolWorkerTask (s : WPState) (data : JsVal) (cb : Nat) (poolName : String) : ExecResult :=
  if (List.lookup poolName s.workerPools).isSome then
    let t : TaskRec := { id := s.nextId, type := "work", data := data, poolName := some poolName }
    let s1 : WPState :=
      { s with nextId := s.nextId + 1, pendingTasks := s.pendingTasks ++ [(t, cb)] }
    let r := processNextTask s1
    { ok := true, message := none, state := r.state, assignedId := some s.nextId,
      sent := r.sent, err := r.err }
  else
    { ok := false, message := some ("Worker pool " ++ poolName ++ " does not exist"),
      state := s, assignedId := none, sent := none, err := none }

/-! ## Properties of the least-busy reduction -/

theorem foldl_reduceLeastBusy_spec (ws : List Worker) (acc : Worker) :
    (ws.foldl reduceLeastBusy acc = acc ∧
      ∀ w ∈ ws, acc.runningTasks ≤ w.runningTasks) ∨
    (∃ (k : Nat) (hk : k < ws.length),
      ws.get ⟨k, hk⟩ = ws.foldl reduceLeastBusy acc ∧
      (ws.foldl reduceLeastBusy acc).runningTasks < acc.runningTasks ∧
      (∀ w ∈ ws, (ws.foldl reduceLeastBusy acc).runningTasks ≤ w.runningTasks) ∧
      ∀ (j : Nat) (hj : j < ws.length), j < k →
        (ws.foldl reduceLeastBusy acc).runningTasks < (ws.get ⟨j, hj⟩).runningTasks) := by
  induction ws generalizing acc with
  | nil =>
    left
    exact ⟨rfl, by simp⟩
  | cons b ws ih =>
    by_cases hab : acc.runningTasks ≤ b.runningTasks
    · have hstep : (b :: ws).foldl reduceLeastBusy acc = ws.foldl reduceLeastBusy acc := by
        simp [List.foldl, reduceLeastBusy, hab]
      rcases ih acc with ⟨heq, hall⟩ | ⟨k, hk, hget, hlt, hmin, hfirst⟩
      · left
        refine ⟨by rw [hstep, heq], ?_⟩
        intro w hw
        rcases List.mem_cons.mp hw with rfl | hw
        · exact hab
        · exact hall w hw
      · right
        refine ⟨k + 1, by simpa using Nat.succ_lt_succ hk, ?_, ?_, ?_, ?_⟩
        · simpa [hstep] using hget
        · rw [hstep]; exact hlt
        · intro w hw
          rw [hstep]
          rcases List.mem_cons.mp hw with rfl | hw
          · exact le_trans (le_of_lt hlt) hab
          · exact hmin w hw
        · intro j hj hjk
          rw [hstep]
          match j, hj with
          | 0, hj => exact lt_of_lt_of_le hlt hab
          | Nat.succ j, hj =>
            exact hfirst j (Nat.lt_of_succ_lt_succ hj) (Nat.lt_of_succ_lt_succ hjk)
    · have hba : b.runningTasks < acc.runningTasks := lt_of_not_le hab
      have hstep : (b :: ws).foldl reduceLeastBusy acc = ws.foldl reduceLeastBusy b := by
        simp [List.foldl, reduceLeastBusy, hab]
      rcases ih b with ⟨heq, hall⟩ | ⟨k, hk, hget, hlt, hmin, hfirst⟩
      · right
        refine ⟨0, by simp, ?_, ?_, ?_, ?_⟩
        · simp [hstep, heq]
        · rw [hstep, heq]; exact hba
        · intro w hw
          rw [hstep, heq]
          rcases List.mem_cons.mp hw with rfl | hw
          · exact le_refl _
          · exact hall w hw
        · intro j hj hjk
          exact absurd hjk (Nat.not_lt_zero j)
      · right
        refine ⟨k + 1, by simpa using Nat.succ_lt_succ hk, ?_, ?_, ?_, ?_⟩
        · simpa [hstep] using hget
        · rw [hstep]; exact lt_trans hlt hba
        · intro w hw
          rw [hstep]
          rcases List.mem_cons.mp hw with rfl | hw
          · exact le_of_lt hlt
          · exact hmin w hw
        · intro j hj hjk
          rw [hstep]
          match j, hj with
          | 0, hj => exact hlt
          | Nat.succ j, hj =>
            exact hfirst j (Nat.lt_of_succ_lt_succ hj) (Nat.lt_of_succ_lt_succ hjk)

/-- On a non-empty list, `leastBusy` returns an element whose `runningTasks`
is minimal, and it is the first element attaining the minimum. -/
theorem leastBusy_spec (l : List Worker) (hl : l ≠ []) :
    ∃ c, leastBusy l = some c ∧
      (∀ w ∈ l, c.runningTasks ≤ w.runningTasks) ∧
      ∃ (k : Nat) (hk : k < l.length), l.get ⟨k, hk⟩ = c ∧
        ∀ (j : Nat) (hj : j < l.length), j < k →
          c.runningTasks < (l.get ⟨j, hj⟩).runningTasks := by
  match l, hl with
  | w :: ws, _ =>
    refine ⟨ws.foldl reduceLeastBusy w, rfl, ?_⟩
    rcases foldl_reduceLeastBusy_spec ws w with ⟨heq, hall⟩ | ⟨k, hk, hget, hlt, hmin, hfirst⟩
    · constructor
      · intro x hx
        rcases List.mem_cons.mp hx with rfl | hx
        · rw [heq]
        · rw [heq]; exact hall x hx
      · exact ⟨0, by simp, by simp [heq], fun j hj hjk => absurd hjk (Nat.not_lt_zero j)⟩
    · constructor
      · intro x hx
        rcases List.mem_cons.mp hx with rfl | hx
        · exact le_of_lt hlt
        · exact hmin x hx
      · refine ⟨k + 1, by simpa using Nat.succ_lt_succ hk, by simpa using hget, ?_⟩
        intro j hj hjk
        match j, hj with
        | 0, hj => exact hlt
        | Nat.succ j, hj =>
          exact hfirst j (Nat.lt_of_succ_lt_succ hj) (Nat.lt_of_succ_lt_succ hjk)

/-- C1: when `processNextTask` runs with a non-empty pending queue and a
non-empty candidate worker set, the worker that receives the head task has
the smallest `runningTasks` in the set at the selection instant, and on ties
the first-encountered worker in the set's iteration order is chosen. -/
theorem processNextTask_least_loaded (s : WPState) (t : TaskRec) (cb : Nat)
    (rest : List (TaskRec × Nat))
    (hp : s.pendingTasks = (t, cb) :: rest)
    (hc : resolveCandidates { s with pendingTasks := rest } t ≠ []) :
    ∃ c, leastBusy (resolveCandidates { s with pendingTasks := rest } t) = some c ∧
      (processNextTask s).sent = some (c.wid, t) ∧
      (processNextTask s).err = none ∧
      (∀ w ∈ resolveCandidates { s with pendingTasks := rest } t,
        c.runningTasks ≤ w.runningTasks) ∧
      ∃ (k : Nat) (hk : k < (resolveCandidates { s with pendingTasks := rest } t).length),
        (resolveCandidates { s with pendingTasks := rest } t).get ⟨k, hk⟩ = c ∧
        ∀ (j : Nat) (hj : j < (resolveCandidates { s with pendingTasks := rest } t).length),
          j < k → c.runningTasks <
            ((resolveCandidates { s with pendingTasks := rest } t).get ⟨j, hj⟩).runningTasks := by
  obtain ⟨c, hcq, hmin, k, hk, hget, hfirst⟩ := leastBusy_spec _ hc
  refine ⟨c, hcq, ?_, ?_, hmin, k, hk, hget, hfirst⟩
  · simp [processNextTask, hp, hcq]
  · simp [processNextTask, hp, hcq]

/-- Witness for C1: a pool of two workers tied at `runningTasks = 0`; the
first-inserted worker (wid 0) is selected. -/
def c1ExampleState : WPState :=
  { workerSet := [0, 1], workerPools := [("P", [0, 1])],
    pendingTasks := [({ id := 0, type := "work", data := JsVal.null, poolName := some "P" }, 9)],
    taskCallbacks := [],
    workers :=
      [ { wid := 0, poolName := "P", workerScript := "w.js", memoryLimit := 4096, runningTasks := 0 },
        { wid := 1, poolName := "P", workerScript := "w.js", memoryLimit := 4096, runningTasks := 0 } ],
    nextWid := 2, nextId := 1 }

theorem processNextTask_least_loaded_witness :
    (c1ExampleState.pendingTasks =
      ({ id := 0, type := "work", data := JsVal.null, poolName := some "P" }, 9) :: [] ∧
     resolveCandidates { c1ExampleState with pendingTasks := [] }
        { id := 0, type := "work", data := JsVal.null, poolName := some "P" } ≠ []) ∧
    (∃ c, leastBusy (resolveCandidates { c1ExampleState with pendingTasks := [] }
        { id := 0, type := "work", data := JsVal.null, poolName := some "P" }) = some c ∧
      (processNextTask c1ExampleState).sent = some (c.wid,
        { id := 0, type := "work", data := JsVal.null, poolName := some "P" }) ∧
      (processNextTask c1ExampleState).err = none ∧
      (∀ w ∈ resolveCandidates { c1ExampleState with pendingTasks := [] }
          { id := 0, type := "work", data := JsVal.null, poolName := some "P" },
        c.runningTasks ≤ w.runningTasks) ∧
      ∃ (k : Nat) (hk : k < (resolveCandidates { c1ExampleState with pendingTasks := [] }
          { id := 0, type := "work", data := JsVal.null, poolName := some "P" }).length),
        (resolveCandidates { c1ExampleState with pendingTasks := [] }
          { id := 0, type := "work", data := JsVal.null, poolName := some "P" }).get ⟨k, hk⟩ = c ∧
        ∀ (j : Nat) (hj : j < (resolveCandidates { c1ExampleState with pendingTasks := [] }
            { id := 0, type := "work", data := JsVal.null, poolName := some "P" }).length),
          j < k → c.runningTasks <
            ((resolveCandidates { c1ExampleState with pendingTasks := [] }
              { id := 0, type := "work", data := JsVal.null, poolName := some "P" }).get
                ⟨j, hj⟩).runningTasks) :=
  ⟨⟨rfl, by decide⟩,
    processNextTask_least_loaded c1ExampleState
      { id := 0, type := "work", data := JsVal.null, poolName := some "P" } 9 [] rfl (by decide)⟩

/-- C9: when `processNextTask` runs with a non-empty pending queue but an
empty candidate worker set, the head task is removed from the queue and the
`reduce` over the empty set then throws, so the task is lost: it is in
neither the pending queue nor the callbacks map, and nothing was sent to any
worker (`processNextTask` never invokes a callback, so the task's callback is
never invoked). -/
theorem processNextTask_empty_pool_loses_task (s : WPState) (t : TaskRec) (cb : Nat)
    (rest : List (TaskRec × Nat))
    (hp : s.pendingTasks = (t, cb) :: rest)
    (hc : resolveCandidates { s with pendingTasks := rest } t = [])
    (hq : ∀ p ∈ rest, (p : TaskRec × Nat).1.id ≠ t.id)
    (hcb : List.lookup t.id s.taskCallbacks = none) :
    (processNextTask s).err.isSome = true ∧
    (processNextTask s).sent = none ∧
    (processNextTask s).state.pendingTasks = rest ∧
    (∀ p ∈ (processNextTask s).state.pendingTasks, (p : TaskRec × Nat).1.id ≠ t.id) ∧
    List.lookup t.id (processNextTask s).state.taskCallbacks = none := by
  refine ⟨?_, ?_, ?_, ?_, ?_⟩ <;>
    simp only [processNextTask, hp, hc, leastBusy, hcb, Option.isSome_some]
  · exact fun p hmem => hq p hmem

/-- Witness state for C9: one task queued, no pools registered, empty global
worker set, so the task's candidate set resolves to the empty `workerSet`. -/
def c9ExampleState : WPState :=
  { workerSet := [], workerPools := [], taskCallbacks := [], workers := [],
    pendingTasks := [({ id := 4, type := "work", data := JsVal.null, poolName := some "Q" }, 3)],
    nextWid := 0, nextId := 5 }

theorem processNextTask_empty_pool_loses_task_witness :
    (c9ExampleState.pendingTasks =
        ({ id := 4, type := "work", data := JsVal.null, poolName := some "Q" }, 3) :: [] ∧
      resolveCandidates { c9ExampleState with pendingTasks := [] }
        { id := 4, type := "work", data := JsVal.null, poolName := some "Q" } = [] ∧
      List.lookup 4 c9ExampleState.taskCallbacks = none) ∧
    ((processNextTask c9ExampleState).err.isSome = true ∧
      (processNextTask c9ExampleState).sent = none ∧
      (processNextTask c9ExampleState).state.pendingTasks = [] ∧
      (∀ p ∈ (processNextTask c9ExampleState).state.pendingTasks,
        (p : TaskRec × Nat).1.id ≠ 4) ∧
      List.lookup 4 (processNextTask c9ExampleState).state.taskCallbacks = none) :=
  ⟨⟨rfl, by decide, by decide⟩,
    processNextTask_empty_pool_loses_task c9ExampleState
      { id := 4, type := "work", data := JsVal.null, poolName := some "Q" } 3 []
      rfl (by decide) (by simp) (by decide)⟩

/-! ## Association-list lemmas used by the message-handler claims -/

theorem updRunningTasks_taskCallbacks (s : WPState) (wid : Nat) (d : Int) :
    (updRunningTasks s wid d).taskCallbacks = s.taskCallbacks := rfl

theorem updRunningTasks_pendingTasks (s : WPState) (wid : Nat) (d : Int) :
    (updRunningTasks s wid d).pendingTasks = s.pendingTasks := rfl

theorem lookup_cons_pair (i a b : Nat) (t : List (Nat × Nat)) :
    List.lookup i ((a, b) :: t) = if i = a then some b else List.lookup i t := by
  by_cases h : i = a
  · subst h; simp [List.lookup]
  · simp [List.lookup, h, beq_false_of_ne h]

theorem lookup_mapDelete (m : List (Nat × Nat)) (k : Nat) :
    List.lookup k (mapDelete m k) = none := by
  induction m with
  | nil => rfl
  | cons p t ih =>
    obtain ⟨a, b⟩ := p
    by_cases h : a = k
    · simpa [mapDelete, List.filter_cons, h] using ih
    · simpa [mapDelete, List.filter_cons, h, lookup_cons_pair, Ne.symm h] using ih

theorem lookup_map_overwrite (m : List (Nat × Nat)) (k v i : Nat) (h : k ≠ i) :
    List.lookup i (m.map (fun p => if p.1 == k then (k, v) else p)) = List.lookup i m := by
  induction m with
  | nil => rfl
  | cons p t ih =>
    obtain ⟨a, b⟩ := p
    by_cases hak : a = k
    · subst hak
      simpa [lookup_cons_pair, Ne.symm h] using ih
    · by_cases hai : i = a
      · simp [hak, lookup_cons_pair, hai]
      · simpa [hak, lookup_cons_pair, hai] using ih

theorem lookup_append_single (m : List (Nat × Nat)) (k v i : Nat) (h : k ≠ i) :
    List.lookup i (m ++ [(k, v)]) = List.lookup i m := by
  induction m with
  | nil => simp [lookup_cons_pair, Ne.symm h]
  | cons p t ih =>
    obtain ⟨a, b⟩ := p
    by_cases hai : i = a
    · simp [lookup_cons_pair, hai]
    · simp [lookup_cons_pair, hai, ih]

theorem lookup_mapSet_ne (m : List (Nat × Nat)) (k v i : Nat) (h : k ≠ i) :
    List.lookup i (mapSet m k v) = List.lookup i m := by
  unfold mapSet
  by_cases hs : (List.lookup k m).isSome
  · simpa [hs] using lookup_map_overwrite m k v i h
  · simpa [hs] using lookup_append_single m k v i h

/-- `processNextTask` only ever adds a callbacks entry keyed by the id of the
pending head task: an id absent from the callbacks map and from the pending
queue remains absent. -/
theorem processNextTask_lookup_none (s : WPState) (i : Nat)
    (h1 : List.lookup i s.taskCallbacks = none)
    (h2 : ∀ p ∈ s.pendingTasks, (p : TaskRec × Nat).1.id ≠ i) :
    List.lookup i (processNextTask s).state.taskCallbacks = none := by
  cases hp : s.pendingTasks with
  | nil => simpa [processNextTask, hp] using h1
  | cons q rest =>
    obtain ⟨t, cb⟩ := q
    have hti : t.id ≠ i := h2 (t, cb) (by rw [hp]; exact List.mem_cons_self _ _)
    cases hlb : leastBusy (resolveCandidates { s with pendingTasks := rest } t) with
    | none => simpa [processNextTask, hp, hlb] using h1
    | some w =>
      simp only [processNextTask, hp, hlb]
      simpa [updRunningTasks, lookup_mapSet_ne _ _ _ _ hti] using h1

/-- A `workDone`/`error` message whose id has no callbacks entry invokes no
callback. -/
theorem processWorkerMessage_invoked_of_lookup_none (s : WPState) (wid : Nat) (m : RMsg)
    (h : List.lookup m.id s.taskCallbacks = none) :
    (processWorkerMessage s wid m).invoked = [] := by
  unfold processWorkerMessage
  by_cases h1 : m.type = "initDone"
  · simp [h1]
  · by_cases h2 : m.type = "workDone" ∨ m.type = "error"
    · simp only [h1, if_false, h2, if_true, updRunningTasks_taskCallbacks, h]
    · simp [h1, h2]

/-- C2: a `workDone` or `error` reply decrements the sending worker's
`runningTasks` and is then handled by `processNextTask` (the final state is
`processNextTask` applied to the decremented intermediate state); when the
callbacks map holds an entry for the reply's id, exactly that callback is
invoked, exactly once, with the full reply message, and the entry is deleted
before `processNextTask` runs, so a second reply with the same id (from any
worker) invokes no callback; when no entry exists, no callback is invoked.
The hypothesis `hq` states that pending tasks do not reuse the reply's id
(task ids are unique in the running system). -/
theorem processWorkerMessage_completion (s : WPState) (wid : Nat) (m : RMsg)
    (hm : m.type = "workDone" ∨ m.type = "error")
    (hq : ∀ p ∈ s.pendingTasks, (p : TaskRec × Nat).1.id ≠ m.id) :
    (∀ cb, List.lookup m.id s.taskCallbacks = some cb →
      (processWorkerMessage s wid m).invoked = [(cb, m)] ∧
      (processWorkerMessage s wid m).state =
        (processNextTask { updRunningTasks s wid (-1) with
          taskCallbacks := mapDelete s.taskCallbacks m.id }).state ∧
      (processWorkerMessage s wid m).sent =
        (processNextTask { updRunningTasks s wid (-1) with
          taskCallbacks := mapDelete s.taskCallbacks m.id }).sent) ∧
    (List.lookup m.id s.taskCallbacks = none →
      (processWorkerMessage s wid m).invoked = [] ∧
      (processWorkerMessage s wid m).state =
        (processNextTask (updRunningTasks s wid (-1))).state) ∧
    List.lookup m.id (processWorkerMessage s wid m).state.taskCallbacks = none ∧
    ∀ wid2, (processWorkerMessage (processWorkerMessage s wid m).state wid2 m).invoked = [] := by
  have h1 : ¬(m.type = "initDone") := by
    rcases hm with h | h <;> rw [h] <;> decide
  have hunfold : processWorkerMessage s wid m =
      (match List.lookup m.id (updRunningTasks s wid (-1)).taskCallbacks with
       | some cb =>
         let s2 : WPState := { updRunningTasks s wid (-1) with
           taskCallbacks := mapDelete (updRunningTasks s wid (-1)).taskCallbacks m.id }
         let r := processNextTask s2
         { state := r.state, invoked := [(cb, m)], sent := r.sent, err := r.err }
       | none =>
         let r := processNextTask (updRunningTasks s wid (-1))
         { state := r.state, invoked := [], sent := r.sent, err := r.err }) := by
    unfold processWorkerMessage
    rw [if_neg h1, if_pos hm]
  have hqid : ∀ p ∈ (updRunningTasks s wid (-1)).pendingTasks,
      (p : TaskRec × Nat).1.id ≠ m.id := by
    rw [updRunningTasks_pendingTasks]; exact hq
  cases hlook : List.lookup m.id s.taskCallbacks with
  | some cb0 =>
    have hlook1 : List.lookup m.id (updRunningTasks s wid (-1)).taskCallbacks = some cb0 := by
      rw [updRunningTasks_taskCallbacks]; exact hlook
    have hres : processWorkerMessage s wid m =
        { state := (processNextTask { updRunningTasks s wid (-1) with
            taskCallbacks := mapDelete s.taskCallbacks m.id }).state,
          invoked := [(cb0, m)],
          sent := (processNextTask { updRunningTasks s wid (-1) with
            taskCallbacks := mapDelete s.taskCallbacks m.id }).sent,
          err := (processNextTask { updRunningTasks s wid (-1) with
            taskCallbacks := mapDelete s.taskCallbacks m.id }).err } := by
      rw [hunfold, hlook1]
      rfl
    have hafter : List.lookup m.id (processWorkerMessage s wid m).state.taskCallbacks = none := by
      rw [hres]
      exact processNextTask_lookup_none _ m.id (lookup_mapDelete _ _) hqid
    refine ⟨?_, ?_, hafter, ?_⟩
    · intro cb hcb
      cases hcb
      rw [hres]
      exact ⟨rfl, rfl, rfl⟩
    · intro hnone
      exact Option.noConfusion hnone
    · intro wid2
      exact processWorkerMessage_invoked_of_lookup_none _ wid2 m hafter
  | none =>
    have hlook1 : List.lookup m.id (updRunningTasks s wid (-1)).taskCallbacks = none := by
      rw [updRunningTasks_taskCallbacks]; exact hlook
    have hres : processWorkerMessage s wid m =
        { state := (processNextTask (updRunningTasks s wid (-1))).state,
          invoked := [],
          sent := (processNextTask (updRunningTasks s wid (-1))).sent,
          err := (processNextTask (updRunningTasks s wid (-1))).err } := by
      rw [hunfold, hlook1]
    have hafter : List.lookup m.id (processWorkerMessage s wid m).state.taskCallbacks = none := by
      rw [hres]
      exact processNextTask_lookup_none _ m.id hlook1 hqid
    refine ⟨?_, ?_, hafter, ?_⟩
    · intro cb hcb
      exact Option.noConfusion hcb
    · intro hnone
      rw [hres]
      exact ⟨rfl, rfl⟩
    · intro wid2
      exact processWorkerMessage_invoked_of_lookup_none _ wid2 m hafter

/-- Witness state for C2: one pool worker (wid 0) with one running task whose
callback (token 7) is registered for task id 5; empty queue. -/
def c2ExampleState : WPState :=
  { workerSet := [0], workerPools := [("P", [0])], pendingTasks := [],
    taskCallbacks := [(5, 7)],
    workers :=
      [ { wid := 0, poolName := "P", workerScript := "w.js", memoryLimit := 4096, runningTasks := 1 } ],
    nextWid := 1, nextId := 6 }

/-- The workDone reply used in the C2 witness. -/
def c2ExampleMsg : RMsg := { type := "workDone", id := 5, ok := true, data := JsVal.null }

theorem processWorkerMessage_completion_witness :
    ((c2ExampleMsg.type = "workDone" ∨ c2ExampleMsg.type = "error") ∧
      (∀ p ∈ c2ExampleState.pendingTasks, (p : TaskRec × Nat).1.id ≠ c2ExampleMsg.id)) ∧
    ((∀ cb, List.lookup c2ExampleMsg.id c2ExampleState.taskCallbacks = some cb →
      (processWorkerMessage c2ExampleState 0 c2ExampleMsg).invoked = [(cb, c2ExampleMsg)] ∧
      (processWorkerMessage c2ExampleState 0 c2ExampleMsg).state =
        (processNextTask { updRunningTasks c2ExampleState 0 (-1) with
          taskCallbacks := mapDelete c2ExampleState.taskCallbacks c2ExampleMsg.id }).state ∧
      (processWorkerMessage c2ExampleState 0 c2ExampleMsg).sent =
        (processNextTask { updRunningTasks c2ExampleState 0 (-1) with
          taskCallbacks := mapDelete c2ExampleState.taskCallbacks c2ExampleMsg.id }).sent) ∧
    (List.lookup c2ExampleMsg.id c2ExampleState.taskCallbacks = none →
      (processWorkerMessage c2ExampleState 0 c2ExampleMsg).invoked = [] ∧
      (processWorkerMessage c2ExampleState 0 c2ExampleMsg).state =
        (processNextTask (updRunningTasks c2ExampleState 0 (-1))).state) ∧
    List.lookup c2ExampleMsg.id
      (processWorkerMessage c2ExampleState 0 c2ExampleMsg).state.taskCallbacks = none ∧
    ∀ wid2,
      (processWorkerMessage (processWorkerMessage c2ExampleState 0 c2ExampleMsg).state
        wid2 c2ExampleMsg).invoked = []) :=
  ⟨⟨Or.inl rfl, by decide⟩,
    processWorkerMessage_completion c2ExampleState 0 c2ExampleMsg (Or.inl rfl) (by decide)⟩

/-- A one-worker pool "CPU" as left by `spawnWorkers(1, "w.js", "CPU", 4096)`:
worker wid 0 is in `workerSet` and in the pool's set. -/
def c3ExampleState : WPState := spawnWorkers emptyState 1 "w.js" "CPU" 4096

/-- C3 (code behavior at the failing input): when the pool worker wid 0 of
pool "CPU" exits with code 1 and signal null, the bound exit handler receives
`("CPU", 1, null)` into its `(code, signal, poolName)` parameters, so it
deletes the worker from `workerSet` but then evaluates
`this.workerPools.get(null).delete(...)`, which throws: the worker is never
removed from its pool's set and no replacement worker is spawned (`nextWid`
is unchanged), contradicting the claim that the handler removes the handle
from both sets and respawns with the same `(script, poolName, memoryLimit)`. -/
theorem manageWorkerExit_binding_bug :
    List.lookup "CPU" c3ExampleState.workerPools = some [0] ∧
    (onWorkerExit c3ExampleState 0 "CPU" 1 none).err.isSome = true ∧
    (onWorkerExit c3ExampleState 0 "CPU" 1 none).state.workerSet = [] ∧
    List.lookup "CPU" (onWorkerExit c3ExampleState 0 "CPU" 1 none).state.workerPools = some [0] ∧
    (onWorkerExit c3ExampleState 0 "CPU" 1 none).state.workers = c3ExampleState.workers ∧
    (onWorkerExit c3ExampleState 0 "CPU" 1 none).state.nextWid = c3ExampleState.nextWid :=
  ⟨rfl, rfl, rfl, rfl, rfl, rfl⟩

/-- A pool configuration entry that omits `workerMemoryLimit` (and
`workerCount`). -/
def c6Config : List PoolConfig :=
  [{ poolName := some "p", workerScript := some "w.js",
     workerCount := none, workerMemoryLimit := none }]

/-- C6 (code behavior at the failing input): `initWorkerPools` passes
`config.workerMemoryLimit || 1` to `spawnWorkers`, so a pool entry that omits
`workerMemoryLimit` spawns its workers with a memory limit of 1 MB, not the
documented default of 4096 (which is `spawnWorkers` own default parameter,
bypassed here because `initWorkerPools` always passes the argument). -/
theorem initWorkerPools_memory_default_bug :
    (initWorkerPools emptyState c6Config).workers =
      [{ wid := 0, poolName := "p", workerScript := "w.js",
         memoryLimit := 1, runningTasks := 0 }] ∧
    (∀ w ∈ (initWorkerPools emptyState c6Config).workers, w.memoryLimit = 1) ∧
    ¬(∃ w ∈ (initWorkerPools emptyState c6Config).workers, w.memoryLimit = 4096) := by
  refine ⟨rfl, ?_, ?_⟩ <;> decide

/-- C10 counterexample: the empty string is a pool name that was never
initialized (it is not a key of the pools map — `initWorkerPools` cannot even
register it, since a falsy `poolName` is skipped), yet calling
`getWorkerStatus` or `terminateWorkers` with it does not throw: JS truthiness
(`poolName ? ... : ...`) routes the falsy `""` to the all-workers branch and
both calls return normally. -/
theorem status_terminate_empty_name_counterexample :
    List.lookup "" emptyState.workerPools = none ∧
    getWorkerStatus emptyState (some "") (fun _ => none) = Except.ok [] ∧
    terminateWorkers emptyState (some "") = Except.ok [] :=
  ⟨rfl, rfl, rfl⟩

/-- C10 (amended): for every non-empty pool name that is not a key of the
pools map, `getWorkerStatus` and `terminateWorkers` throw (the pool lookup
yields `undefined` and the subsequent iteration fails), while calling them
with no pool name operates on the full worker set without error. -/
theorem status_terminate_unknown_pool (s : WPState) (p : String)
    (probe : Nat → Option StatRec)
    (h1 : List.lookup p s.workerPools = none) (h2 : p ≠ "") :
    (∃ e, getWorkerStatus s (some p) probe = Except.error e) ∧
    (∃ e, terminateWorkers s (some p) = Except.error e) ∧
    (∃ v, getWorkerStatus s none probe = Except.ok v) ∧
    (∃ v, terminateWorkers s none = Except.ok v) := by
  refine ⟨⟨"TypeError: targetWorkers is not iterable", ?_⟩,
    ⟨"TypeError: Cannot read properties of undefined, reading forEach", ?_⟩,
    ⟨_, rfl⟩, ⟨_, rfl⟩⟩
  · unfold getWorkerStatus
    simp [jsTruthyStr, h1, h2]
  · unfold terminateWorkers
    simp [jsTruthyStr, h1, h2]

theorem status_terminate_unknown_pool_witness :
    (List.lookup "NOPE" emptyState.workerPools = none ∧ "NOPE" ≠ "") ∧
    ((∃ e, getWorkerStatus emptyState (some "NOPE") (fun _ => none) = Except.error e) ∧
     (∃ e, terminateWorkers emptyState (some "NOPE") = Except.error e) ∧
     (∃ v, getWorkerStatus emptyState none (fun _ => none) = Except.ok v) ∧
     (∃ v, terminateWorkers emptyState none = Except.ok v)) :=
  ⟨⟨rfl, by decide⟩,
    status_terminate_unknown_pool emptyState "NOPE" (fun _ => none) rfl (by decide)⟩

/-- C4: submitting a pool task against a pool name that is not a key of the
pools map returns `{ok: false, message: "Worker pool <name> does not exist"}`
synchronously: no state change (in particular the task is not enqueued and no
callback is recorded), nothing is sent, nothing is thrown, no id is assigned,
and the supplied callback is never invoked (the submit path invokes no
callback in any branch, and the untouched state cannot invoke it later). -/
theorem executePoolWorkerTask_unknown_pool (s : WPState) (data : JsVal) (cb : Nat) (p : String)
    (h : List.lookup p s.workerPools = none) :
    (executePoolWorkerTask s data cb p).ok = false ∧
    (executePoolWorkerTask s data cb p).message =
      some ("Worker pool " ++ p ++ " does not exist") ∧
    (executePoolWorkerTask s data cb p).state = s ∧
    (executePoolWorkerTask s data cb p).sent = none ∧
    (executePoolWorkerTask s data cb p).err = none ∧
    (executePoolWorkerTask s data cb p).assignedId = none := by
  unfold executePoolWorkerTask
  simp [h]

theorem executePoolWorkerTask_unknown_pool_witness :
    List.lookup "NOPE" emptyState.workerPools = none ∧
    ((executePoolWorkerTask emptyState JsVal.null 0 "NOPE").ok = false ∧
     (executePoolWorkerTask emptyState JsVal.null 0 "NOPE").message =
       some ("Worker pool " ++ "NOPE" ++ " does not exist") ∧
     (executePoolWorkerTask emptyState JsVal.null 0 "NOPE").state = emptyState ∧
     (executePoolWorkerTask emptyState JsVal.null 0 "NOPE").sent = none ∧
     (executePoolWorkerTask emptyState JsVal.null 0 "NOPE").err = none ∧
     (executePoolWorkerTask emptyState JsVal.null 0 "NOPE").assignedId = none) :=
  ⟨rfl, executePoolWorkerTask_unknown_pool emptyState JsVal.null 0 "NOPE" rfl⟩

theorem processNextTask_nextId (s : WPState) :
    (processNextTask s).state.nextId = s.nextId := by
  cases hp : s.pendingTasks with
  | nil => simp [processNextTask, hp]
  | cons q rest =>
    obtain ⟨t, cb⟩ := q
    cases hlb : leastBusy (resolveCandidates { s with pendingTasks := rest } t) with
    | none => simp [processNextTask, hp, hlb]
    | some w => simp [processNextTask, hp, hlb, updRunningTasks]

theorem processNextTask_workerPools (s : WPState) :
    (processNextTask s).state.workerPools = s.workerPools := by
  cases hp : s.pendingTasks with
  | nil => simp [processNextTask, hp]
  | cons q rest =>
    obtain ⟨t, cb⟩ := q
    cases hlb : leastBusy (resolveCandidates { s with pendingTasks := rest } t) with
    | none => simp [processNextTask, hp, hlb]
    | some w => simp [processNextTask, hp, hlb, updRunningTasks]

/-- C7: the submit operation assigns the task id itself, from manager state
alone — the same id is assigned whatever payload or callback the caller
supplies — and consecutive submissions get distinct ids, so two distinct
submissions never share an id in the callbacks map. -/
theorem executePoolWorkerTask_fresh_ids (s : WPState) (d d2 : JsVal) (cb cb2 : Nat)
    (p p2 : String)
    (h : (List.lookup p s.workerPools).isSome = true)
    (h2 : (List.lookup p2 s.workerPools).isSome = true) :
    (executePoolWorkerTask s d cb p).assignedId = some s.nextId ∧
    (∀ d3 cb3, (executePoolWorkerTask s d3 cb3 p).assignedId = some s.nextId) ∧
    (executePoolWorkerTask s d cb p).state.nextId = s.nextId + 1 ∧
    (executePoolWorkerTask (executePoolWorkerTask s d cb p).state d2 cb2 p2).assignedId =
      some (s.nextId + 1) ∧
    (executePoolWorkerTask (executePoolWorkerTask s d cb p).state d2 cb2 p2).assignedId ≠
      (executePoolWorkerTask s d cb p).assignedId := by
  have hfst : ∀ (d3 : JsVal) (cb3 : Nat),
      (executePoolWorkerTask s d3 cb3 p).assignedId = some s.nextId := by
    intro d3 cb3
    unfold executePoolWorkerTask
    simp [h]
  have hnid : (executePoolWorkerTask s d cb p).state.nextId = s.nextId + 1 := by
    unfold executePoolWorkerTask
    simp only [h, if_true]
    rw [processNextTask_nextId]
  have hpools : (executePoolWorkerTask s d cb p).state.workerPools = s.workerPools := by
    unfold executePoolWorkerTask
    simp only [h, if_true]
    rw [processNextTask_workerPools]
  have hsnd : (executePoolWorkerTask (executePoolWorkerTask s d cb p).state d2 cb2 p2).assignedId =
      some (s.nextId + 1) := by
    have hl : (List.lookup p2 (executePoolWorkerTask s d cb p).state.workerPools).isSome = true := by
      rw [hpools]; exact h2
    have hn : (executePoolWorkerTask s d cb p).state.nextId = s.nextId + 1 := hnid
    generalize hgen : (executePoolWorkerTask s d cb p).state = s2 at hl hn
    unfold executePoolWorkerTask
    simp [hl, hn]
  refine ⟨hfst d cb, hfst, hnid, hsnd, ?_⟩
  rw [hsnd, hfst d cb]
  simp

/-- Witness state for C7: a registered pool "P" with one idle worker. -/
def c7ExampleState : WPState :=
  { workerSet := [0], workerPools := [("P", [0])], pendingTasks := [],
    taskCallbacks := [],
    workers :=
      [ { wid := 0, poolName := "P", workerScript := "w.js", memoryLimit := 4096, runningTasks := 0 } ],
    nextWid := 1, nextId := 0 }

theorem executePoolWorkerTask_fresh_ids_witness :
    ((List.lookup "P" c7ExampleState.workerPools).isSome = true ∧
     (List.lookup "P" c7ExampleState.workerPools).isSome = true) ∧
    ((executePoolWorkerTask c7ExampleState JsVal.null 1 "P").assignedId =
        some c7ExampleState.nextId ∧
     (∀ d3 cb3, (executePoolWorkerTask c7ExampleState d3 cb3 "P").assignedId =
        some c7ExampleState.nextId) ∧
     (executePoolWorkerTask c7ExampleState JsVal.null 1 "P").state.nextId =
        c7ExampleState.nextId + 1 ∧
     (executePoolWorkerTask
        (executePoolWorkerTask c7ExampleState JsVal.null 1 "P").state
        (JsVal.num 2) 2 "P").assignedId = some (c7ExampleState.nextId + 1) ∧
     (executePoolWorkerTask
        (executePoolWorkerTask c7ExampleState JsVal.null 1 "P").state
        (JsVal.num 2) 2 "P").assignedId ≠
       (executePoolWorkerTask c7ExampleState JsVal.null 1 "P").assignedId) :=
  ⟨⟨rfl, rfl⟩,
    executePoolWorkerTask_fresh_ids c7ExampleState JsVal.null (JsVal.num 2) 1 2 "P" "P" rfl rfl⟩

/-- C8: for every INIT or WORK message a child worker processes, the reply it
sends echoes the id of the originating request, with `ok = true` exactly on
the `initDone`/`workDone` replies and `ok = false` exactly on the `error`
reply. -/
theorem childOnMessage_echoes_id (pid : Nat) (outcome : Except String JsVal) (t : CMsg)
    (h : t.type = "init" ∨ t.type = "work") :
    ∃ r, childOnMessage pid outcome t = ChildAction.reply r ∧
      r.id = t.id ∧
      (r.ok = true ↔ (r.type = "initDone" ∨ r.type = "workDone")) ∧
      (r.ok = false ↔ r.type = "error") := by
  rcases h with h | h
  · exact ⟨{ type := "initDone", id := t.id, ok := true, data := JsVal.num (Int.ofNat pid) },
      by simp [childOnMessage, h], rfl, by simp, by simp⟩
  · cases outcome with
    | ok dv =>
      exact ⟨{ type := "workDone", id := t.id, ok := true, data := dv },
        by simp [childOnMessage, h], rfl, by simp, by simp⟩
    | error e =>
      exact ⟨{ type := "error", id := t.id, ok := false, data := JsVal.str e },
        by simp [childOnMessage, h], rfl, by simp, by simp⟩

theorem childOnMessage_echoes_id_witness :
    (CMsg.type { type := "init", id := some 3, data := JsVal.null } = "init" ∨
     CMsg.type { type := "init", id := some 3, data := JsVal.null } = "work") ∧
    (∃ r, childOnMessage 1 (Except.ok JsVal.null)
        { type := "init", id := some 3, data := JsVal.null } = ChildAction.reply r ∧
      r.id = CMsg.id { type := "init", id := some 3, data := JsVal.null } ∧
      (r.ok = true ↔ (r.type = "initDone" ∨ r.type = "workDone")) ∧
      (r.ok = false ↔ r.type = "error")) :=
  ⟨Or.inl rfl,
    childOnMessage_echoes_id 1 (Except.ok JsVal.null)
      { type := "init", id := some 3, data := JsVal.null } (Or.inl rfl)⟩

/-! ## Reachable states of the manager (claim C5)

`out wid` counts the WORK tasks dispatched to worker `wid` that have not yet
been answered.  It records the child-protocol obligation (spec section 4.1)
that a worker sends at most one `workDone`/`error` reply per WORK message it
received: a completion event for `wid` is only possible while `out wid > 0`. -/

/-- Account a dispatch: the chosen worker gains one outstanding task. -/
def bump (out : Nat → Nat) (sent : Option (Nat × TaskRec)) : Nat → Nat :=
  match sent with
  | none => out
  | some (w, _) => fun x => if x = w then out x + 1 else out x

/-- Account a completion: worker `w` loses one outstanding task. -/
def decAt (out : Nat → Nat) (w : Nat) : Nat → Nat :=
  fun x => if x = w then out x - 1 else out x

/-- The manager states reachable from the fresh manager by any sequence of
spawns, task submissions (each of which runs the dispatcher), and child
messages, paired with the outstanding-task accounting.  A `workDone`/`error`
reply from worker `wid` requires `0 < out wid` (a protocol-honoring child
replies exactly once per WORK message it received); all other message types
are unrestricted. -/
inductive Reach : WPState → (Nat → Nat) → Prop where
  | init : Reach emptyState (fun _ => 0)
  | spawn (s : WPState) (out : Nat → Nat) (cnt : Nat) (script pool : String) (mem : Int) :
      Reach s out → Reach (spawnWorkers s cnt script pool mem) out
  | submit (s : WPState) (out : Nat → Nat) (task : TaskRec) (cb : Nat) (pool : String) :
      Reach s out →
      Reach (addWorkerTask s task cb pool).state (bump out (addWorkerTask s task cb pool).sent)
  | reply (s : WPState) (out : Nat → Nat) (wid : Nat) (m : RMsg) :
      Reach s out → (m.type = "workDone" ∨ m.type = "error") → 0 < out wid →
      Reach (processWorkerMessage s wid m).state
        (bump (decAt out wid) (processWorkerMessage s wid m).sent)
  | otherMsg (s : WPState) (out : Nat → Nat) (wid : Nat) (m : RMsg) :
      Reach s out → ¬(m.type = "workDone" ∨ m.type = "error") →
      Reach (processWorkerMessage s wid m).state out

/-- The inductive invariant: every stored worker's `runningTasks` equals its
outstanding-task count (hence is non-negative), worker ids are below the
fresh-id bound, and ids at or above the bound have no outstanding tasks. -/
def WInv (s : WPState) (out : Nat → Nat) : Prop :=
  (∀ w ∈ s.workers, w.runningTasks = (out w.wid : Int)) ∧
  (∀ w ∈ s.workers, w.wid < s.nextWid) ∧
  (∀ i, s.nextWid ≤ i → out i = 0)

theorem WInv_ext (s s2 : WPState) (out : Nat → Nat)
    (hw : s2.workers = s.workers) (hn : s2.nextWid = s.nextWid)
    (h : WInv s out) : WInv s2 out := by
  unfold WInv at h ⊢
  rw [hw, hn]
  exact h

theorem winv_spawnOne (s : WPState) (out : Nat → Nat) (script pool : String) (mem : Int)
    (h : WInv s out) : WInv (spawnOne s script pool mem) out := by
  obtain ⟨h1, h2, h3⟩ := h
  refine ⟨?_, ?_, ?_⟩
  · intro w hw
    rcases List.mem_append.mp hw with hw | hw
    · exact h1 w hw
    · rcases List.mem_singleton.mp hw with rfl
      simp [h3 s.nextWid (le_refl _)]
  · intro w hw
    rcases List.mem_append.mp hw with hw | hw
    · exact Nat.lt_succ_of_lt (h2 w hw)
    · rcases List.mem_singleton.mp hw with rfl
      exact Nat.lt_succ_self _
  · intro i hi
    exact h3 i (Nat.le_of_succ_le hi)

theorem winv_spawnLoop (s : WPState) (out : Nat → Nat) (n : Nat) (script pool : String)
    (mem : Int) (h : WInv s out) : WInv (spawnLoop s n script pool mem) out := by
  induction n generalizing s with
  | zero => exact h
  | succ k ih => exact ih _ (winv_spawnOne s out script pool mem h)

theorem winv_spawnWorkers (s : WPState) (out : Nat → Nat) (cnt : Nat) (script pool : String)
    (mem : Int) (h : WInv s out) : WInv (spawnWorkers s cnt script pool mem) out := by
  unfold spawnWorkers
  by_cases hp : (List.lookup pool s.workerPools).isSome
  · simp only [hp, if_true]
    exact winv_spawnLoop _ out cnt script pool mem h
  · simp only [hp, if_false]
    refine winv_spawnLoop _ out cnt script pool mem ?_
    exact WInv_ext s _ out rfl rfl h

theorem winv_inc (s : WPState) (out : Nat → Nat) (wid : Nat)
    (h : WInv s out) (hw : wid < s.nextWid) :
    WInv (updRunningTasks s wid 1) (fun x => if x = wid then out x + 1 else out x) := by
  obtain ⟨h1, h2, h3⟩ := h
  refine ⟨?_, ?_, ?_⟩
  · intro w2 hw2
    obtain ⟨w, hwmem, hmap⟩ := List.mem_map.mp hw2
    by_cases hEq : w.wid = wid
    · rw [if_pos (by exact beq_iff_eq.mpr hEq)] at hmap
      subst hmap
      show w.runningTasks + 1 = ((if w.wid = wid then out w.wid + 1 else out w.wid : Nat) : Int)
      rw [if_pos hEq, hEq]
      have hh := h1 w hwmem
      rw [hEq] at hh
      omega
    · rw [if_neg (by simpa using hEq)] at hmap
      subst hmap
      show w.runningTasks = ((if w.wid = wid then out w.wid + 1 else out w.wid : Nat) : Int)
      rw [if_neg hEq]
      exact h1 w hwmem
  · intro w2 hw2
    obtain ⟨w, hwmem, hmap⟩ := List.mem_map.mp hw2
    have hwid : w2.wid = w.wid := by
      by_cases hEq : w.wid = wid
      · rw [if_pos (by exact beq_iff_eq.mpr hEq)] at hmap
        subst hmap
        rfl
      · rw [if_neg (by simpa using hEq)] at hmap
        subst hmap
        rfl
    rw [show (updRunningTasks s wid 1).nextWid = s.nextWid from rfl, hwid]
    exact h2 w hwmem
  · intro i hi
    have hi2 : s.nextWid ≤ i := hi
    have hne : i ≠ wid := by omega
    simp only [if_neg hne]
    exact h3 i hi2

theorem winv_dec (s : WPState) (out : Nat → Nat) (wid : Nat)
    (h : WInv s out) (hpos : 0 < out wid) :
    WInv (updRunningTasks s wid (-1)) (decAt out wid) := by
  obtain ⟨h1, h2, h3⟩ := h
  refine ⟨?_, ?_, ?_⟩
  · intro w2 hw2
    obtain ⟨w, hwmem, hmap⟩ := List.mem_map.mp hw2
    by_cases hEq : w.wid = wid
    · rw [if_pos (by exact beq_iff_eq.mpr hEq)] at hmap
      subst hmap
      show w.runningTasks + (-1) = ((decAt out wid) w.wid : Int)
      unfold decAt
      rw [if_pos hEq, hEq]
      have hh := h1 w hwmem
      rw [hEq] at hh
      omega
    · rw [if_neg (by simpa using hEq)] at hmap
      subst hmap
      show w.runningTasks = ((decAt out wid) w.wid : Int)
      unfold decAt
      rw [if_neg hEq]
      exact h1 w hwmem
  · intro w2 hw2
    obtain ⟨w, hwmem, hmap⟩ := List.mem_map.mp hw2
    have hwid : w2.wid = w.wid := by
      by_cases hEq : w.wid = wid
      · rw [if_pos (by exact beq_iff_eq.mpr hEq)] at hmap
        subst hmap
        rfl
      · rw [if_neg (by simpa using hEq)] at hmap
        subst hmap
        rfl
    rw [show (updRunningTasks s wid (-1)).nextWid = s.nextWid from rfl, hwid]
    exact h2 w hwmem
  · intro i hi
    have hi2 : s.nextWid ≤ i := hi
    unfold decAt
    by_cases hEq : i = wid
    · rw [if_pos hEq, h3 i hi2]
    · rw [if_neg hEq]
      exact h3 i hi2

theorem mem_resolveCandidates (s : WPState) (t : TaskRec) (w : Worker)
    (h : w ∈ resolveCandidates s t) : w ∈ s.workers := by
  unfold resolveCandidates at h
  obtain ⟨wid, _, hgw⟩ := List.mem_filterMap.mp h
  exact List.mem_of_find?_eq_some hgw

theorem leastBusy_mem (l : List Worker) (c : Worker) (h : leastBusy l = some c) : c ∈ l := by
  have hne : l ≠ [] := by
    intro hl
    rw [hl] at h
    exact Option.noConfusion h
  obtain ⟨c2, heq, _, k, hk, hget, _⟩ := leastBusy_spec l hne
  rw [h] at heq
  cases heq
  rw [← hget]
  exact List.get_mem l k hk

theorem winv_processNextTask (s : WPState) (out : Nat → Nat) (h : WInv s out) :
    WInv (processNextTask s).state (bump out (processNextTask s).sent) := by
  cases hp : s.pendingTasks with
  | nil =>
    simp only [processNextTask, hp]
    exact h
  | cons q rest =>
    obtain ⟨t, cb⟩ := q
    have hs1 : WInv { s with pendingTasks := rest } out := WInv_ext s _ out rfl rfl h
    cases hlb : leastBusy (resolveCandidates { s with pendingTasks := rest } t) with
    | none =>
      simp only [processNextTask, hp, hlb]
      exact hs1
    | some w =>
      simp only [processNextTask, hp, hlb]
      have hmem : w ∈ ({ s with pendingTasks := rest } : WPState).workers :=
        mem_resolveCandidates _ t w (leastBusy_mem _ w hlb)
      have hwlt : w.wid < s.nextWid := hs1.2.1 w hmem
      have hs2 : WInv { { s with pendingTasks := rest } with
          taskCallbacks := mapSet ({ s with pendingTasks := rest } : WPState).taskCallbacks t.id cb } out :=
        WInv_ext _ _ out rfl rfl hs1
      have := winv_inc _ out w.wid hs2 hwlt
      exact this

theorem pwm_state_other (s : WPState) (wid : Nat) (m : RMsg)
    (hm : ¬(m.type = "workDone" ∨ m.type = "error")) :
    (processWorkerMessage s wid m).state = s := by
  unfold processWorkerMessage
  by_cases h1 : m.type = "initDone"
  · simp [h1]
  · simp [h1, hm]

theorem winv_processWorkerMessage (s : WPState) (out : Nat → Nat) (wid : Nat) (m : RMsg)
    (h : WInv s out) (hm : m.type = "workDone" ∨ m.type = "error") (hpos : 0 < out wid) :
    WInv (processWorkerMessage s wid m).state
      (bump (decAt out wid) (processWorkerMessage s wid m).sent) := by
  have h1 : ¬(m.type = "initDone") := by
    rcases hm with hx | hx <;> rw [hx] <;> decide
  have hdec : WInv (updRunningTasks s wid (-1)) (decAt out wid) := winv_dec s out wid h hpos
  cases hlook : List.lookup m.id (updRunningTasks s wid (-1)).taskCallbacks with
  | none =>
    have hst : processWorkerMessage s wid m =
        { state := (processNextTask (updRunningTasks s wid (-1))).state,
          invoked := [],
          sent := (processNextTask (updRunningTasks s wid (-1))).sent,
          err := (processNextTask (updRunningTasks s wid (-1))).err } := by
      unfold processWorkerMessage
      rw [if_neg h1, if_pos hm]
      simp only [hlook]
    rw [hst]
    exact winv_processNextTask _ _ hdec
  | some cb =>
    have hst : processWorkerMessage s wid m =
        { state := (processNextTask { updRunningTasks s wid (-1) with
            taskCallbacks := mapDelete (updRunningTasks s wid (-1)).taskCallbacks m.id }).state,
          invoked := [(cb, m)],
          sent := (processNextTask { updRunningTasks s wid (-1) with
            taskCallbacks := mapDelete (updRunningTasks s wid (-1)).taskCallbacks m.id }).sent,
          err := (processNextTask { updRunningTasks s wid (-1) with
            taskCallbacks := mapDelete (updRunningTasks s wid (-1)).taskCallbacks m.id }).err } := by
      unfold processWorkerMessage
      rw [if_neg h1, if_pos hm]
      simp only [hlook]
    rw [hst]
    exact winv_processNextTask _ _ (WInv_ext _ _ _ rfl rfl hdec)

/-- Every reachable state satisfies the inductive invariant. -/
theorem Reach_WInv (s : WPState) (out : Nat → Nat) (h : Reach s out) : WInv s out := by
  induction h with
  | init =>
    refine ⟨?_, ?_, ?_⟩ <;> intro x hx <;> simp [emptyState] at hx ⊢
  | spawn s out cnt script pool mem _ ih =>
    exact winv_spawnWorkers s out cnt script pool mem ih
  | submit s out task cb pool _ ih =>
    unfold addWorkerTask
    exact winv_processNextTask _ out (WInv_ext _ _ out rfl rfl ih)
  | reply s out wid m _ hm hpos ih =>
    exact winv_processWorkerMessage s out wid m ih hm hpos
  | otherMsg s out wid m _ hm ih =>
    rw [pwm_state_other s wid m hm]
    exact ih

/-- C5: in every reachable manager state — any sequence of spawns, task
submissions, dispatches, and protocol-conforming completion messages — every
worker's `runningTasks` is non-negative. -/
theorem runningTasks_nonneg (s : WPState) (out : Nat → Nat) (w : Worker)
    (h : Reach s out) (hw : w ∈ s.workers) : 0 ≤ w.runningTasks := by
  rw [(Reach_WInv s out h).1 w hw]
  exact Int.natCast_nonneg _

theorem runningTasks_nonneg_witness :
    (Reach (spawnWorkers emptyState 1 "w.js" "P" 4096) (fun _ => 0) ∧
      ({ wid := 0, poolName := "P", workerScript := "w.js", memoryLimit := 4096,
         runningTasks := 0 } : Worker) ∈ (spawnWorkers emptyState 1 "w.js" "P" 4096).workers) ∧
    0 ≤ ({ wid := 0, poolName := "P", workerScript := "w.js", memoryLimit := 4096,
           runningTasks := 0 } : Worker).runningTasks :=
  ⟨⟨Reach.spawn emptyState (fun _ => 0) 1 "w.js" "P" 4096 Reach.init, by decide⟩,
    runningTasks_nonneg (spawnWorkers emptyState 1 "w.js" "P" 4096) (fun _ => 0)
      { wid := 0, poolName := "P", workerScript := "w.js", memoryLimit := 4096,
        runningTasks := 0 }
      (Reach.spawn emptyState (fun _ => 0) 1 "w.js" "P" 4096 Reach.init) (by decide)⟩

end WPM
